import Mathlib

/-!
# Verification of the DevBed event/command bridge (`src/index.ts`)

This file shallowly embeds the parts of the `DevBed` class from
`src/index.ts` that the claims are about:

* JavaScript plain objects are modelled as association lists of
  string-keyed values (`Obj`), and object spread `\x7b...a, ...b\x7d` as
  `mergeObj`;
* the event bridge (`callbacks`, `defaultData`, `on`, `off`, `trigger`,
  the `bedspace:ev` envelope channel and the constructor wiring);
* `getId` and its monotone `ids` counter;
* `once` together with the JS `Array.prototype.map` dispatch semantics of
  `callEachCallback` and lodash `_.pull`;
* `cmd`/`maybe` (dual promise/callback convention);
* the constructor collision check (line 341);
* the `BedComponent` helpers `add`/`data` produced by `transformComponent`;
* the `blockAt`/`locate` response handlers, including an executable
  backtracking matcher for the fixed regex used by `blockAt`;
* `setInterval`/`setTimeout`/`clearInterval` and the interval table.

Functions that can `throw` in the source are embedded with an explicit
error component (`Except` or an `Option String` error slot); all other
functions are pure Lean functions.
-/

/-- A JavaScript value, as far as the claims need: strings, booleans,
integers and plain objects (association lists from field name to value).
Mirrors the payloads flowing through `DevBed`'s event bridge. -/
inductive Val where
  | vStr (s : String)
  | vBool (b : Bool)
  | vNum (n : Int)
  | vObj (fields : List (String × Val))

/-- A JavaScript plain object: ordered association list of fields. -/
def Obj : Type := List (String × Val)

/-- Field lookup on a plain object (first occurrence of the key). -/
def lookupObj : Obj → String → Option Val
  | [], _ => none
  | (k, v) :: rest, key => if k = key then some v else lookupObj rest key

/-- JavaScript property write `o[k] = v`: update the existing field in
place, else append the new field at the end. -/
def setKey : Obj → String → Val → Obj
  | [], k, v => [(k, v)]
  | (k0, v0) :: rest, k, v =>
      if k0 = k then (k0, v) :: rest else (k0, v0) :: setKey rest k v

/-- JavaScript object spread `\x7b ...a, ...b \x7d`: start from `a` and write
each field of `b` in order (fields of `b` win; fields only in `a` are
preserved). This is the shallow merge used by `trigger` and
`parseTransform`. -/
def mergeObj (a b : Obj) : Obj :=
  b.foldl (fun acc kv => setKey acc kv.1 kv.2) a

theorem lookupObj_setKey (o : Obj) (k : String) (v : Val) (key : String) :
    lookupObj (setKey o k v) key = if key = k then some v else lookupObj o key := by
  induction o with
  | nil => simp [setKey, lookupObj, eq_comm]
  | cons hd tl ih =>
      obtain ⟨k0, v0⟩ := hd
      by_cases h0 : k0 = k <;> by_cases h1 : k0 = key <;> by_cases h2 : key = k <;>
        simp_all [setKey, lookupObj]

theorem lookupObj_eq_none_of_not_mem (o : Obj) (key : String)
    (h : key ∉ o.map Prod.fst) : lookupObj o key = none := by
  induction o with
  | nil => rfl
  | cons hd tl ih =>
      obtain ⟨k0, v0⟩ := hd
      simp only [List.map_cons, List.mem_cons, not_or] at h
      have hk : ¬ (k0 = key) := fun he => h.1 he.symm
      simp only [lookupObj, if_neg hk]
      exact ih h.2

/-- Lookup in a merged object: a field of `b` (with no duplicate keys in
`b`) wins; otherwise the field of `a` is returned. -/
theorem lookupObj_mergeObj (a b : Obj) (key : String)
    (hb : (b.map Prod.fst).Nodup) :
    lookupObj (mergeObj a b) key =
      match lookupObj b key with
      | some v => some v
      | none => lookupObj a key := by
  induction b generalizing a with
  | nil => simp [mergeObj, lookupObj]
  | cons hd tl ih =>
      obtain ⟨k0, v0⟩ := hd
      simp only [List.map_cons, List.nodup_cons] at hb
      have step : mergeObj a ((k0, v0) :: tl) = mergeObj (setKey a k0 v0) tl := by
        simp [mergeObj]
      rw [step, ih _ hb.2]
      by_cases h : key = k0
      · subst h
        have hnot : lookupObj tl key = none :=
          lookupObj_eq_none_of_not_mem tl key (fun hm => hb.1 hm)
        simp [hnot, lookupObj, lookupObj_setKey]
      · have hne : ¬ (k0 = key) := fun he => h he.symm
        simp only [lookupObj, if_neg hne]
        cases hcase : lookupObj tl key with
        | some v => simp [hcase]
        | none => simp [hcase, lookupObj_setKey, h]

/-! ## Generated ids (`DevBed.getId`, lines 390-398) -/

/-- The decimal digit character for `d` (JS number-to-string digits). -/
def digitChar (d : Nat) : Char := Char.ofNat (48 + d)

/-- Decimal rendering of a natural number, as JS template interpolation
`${this.ids}` renders a non-negative integer. -/
def printNat (n : Nat) : List Char :=
  if _h : n < 10 then [digitChar n]
  else printNat (n / 10) ++ [digitChar (n % 10)]
termination_by n
decreasing_by
  exact Nat.div_lt_self (by omega) (by omega)

/-- Reads a digit string back into a number (left fold over digits). -/
def readNat (cs : List Char) : Nat :=
  cs.foldl (fun acc c => acc * 10 + (c.toNat - 48)) 0

theorem digitChar_toNat (d : Nat) (h : d < 10) : (digitChar d).toNat = 48 + d := by
  interval_cases d <;> decide

theorem readNat_append_digit (cs : List Char) (c : Char) :
    readNat (cs ++ [c]) = readNat cs * 10 + (c.toNat - 48) := by
  simp [readNat, List.foldl_append]

theorem readNat_printNat (n : Nat) : readNat (printNat n) = n := by
  induction n using Nat.strong_induction_on with
  | _ n ih =>
      by_cases h : n < 10
      · rw [printNat]
        simp only [h, dif_pos]
        show readNat [digitChar n] = n
        simp [readNat, digitChar_toNat n h]
      · rw [printNat]
        simp only [h, dif_neg, not_false_iff]
        rw [readNat_append_digit,
          ih (n / 10) (Nat.div_lt_self (by omega) (by omega)),
          digitChar_toNat (n % 10) (Nat.mod_lt _ (by omega))]
        omega

/-- Rendering of a JS number (integer-valued) to a string. -/
def intStr (n : Int) : String :=
  if n < 0 then "-" ++ String.mk (printNat n.natAbs) else String.mk (printNat n.natAbs)

/-- The id string built by `getId` for counter value `ids`:
`` `${this.bedspace}:custom${this.ids}` ``. -/
def getIdStr (bedspace : String) (ids : Int) : String :=
  bedspace ++ ":custom" ++ intStr ids

/-- `DevBed.getId`: pre-increments the instance counter `ids` (initialised
to `-1`) and returns the namespaced id string together with the new
counter. -/
def getId (bedspace : String) (ids : Int) : String × Int :=
  (getIdStr bedspace (ids + 1), ids + 1)

theorem getIdStr_inj (bedspace : String) (i j : Int)
    (hi : 0 ≤ i) (hj : 0 ≤ j) (h : getIdStr bedspace i = getIdStr bedspace j) :
    i = j := by
  have hdata : (getIdStr bedspace i).data = (getIdStr bedspace j).data := by rw [h]
  simp only [getIdStr, intStr, if_neg (by omega : ¬ i < 0), if_neg (by omega : ¬ j < 0)] at hdata
  simp only [String.data_append] at hdata
  have hlists : printNat i.natAbs = printNat j.natAbs := by
    simpa using List.append_cancel_left hdata
  have : readNat (printNat i.natAbs) = readNat (printNat j.natAbs) := by rw [hlists]
  rw [readNat_printNat, readNat_printNat] at this
  omega

/-! ## The event bridge (`DevBed.callbacks`, `on`, `off`, `trigger`) -/

/-- `name.includes(":")`: whether an event name is host-namespaced. -/
def hasColon (s : String) : Bool := s.data.any (fun c => c == ':')

/-- Whether a string contains a space, i.e. whether `split(" ")` yields
more than one word (the compound registration form of `on`/`off`). -/
def hasSpace (s : String) : Bool := s.data.any (fun c => c == ' ')

/-- JS `String.prototype.split` with a one-character separator, on the
character list. -/
def splitChars (sep : Char) : List Char → List (List Char)
  | [] => [[]]
  | c :: rest =>
      match splitChars sep rest with
      | [] => [[]]
      | w :: ws => if c = sep then [] :: w :: ws else (c :: w) :: ws

/-- `event.split(" ")` as used by `on` and `off`. -/
def splitWords (s : String) : List String := (splitChars ' ' s.data).map String.mk

theorem splitChars_no_sep (sep : Char) (cs : List Char)
    (h : cs.all (fun c => ¬ c = sep)) : splitChars sep cs = [cs] := by
  induction cs with
  | nil => rfl
  | cons c rest ih =>
      simp only [List.all_cons, Bool.and_eq_true, decide_eq_true_eq] at h
      rw [splitChars, ih (by simpa using h.2)]
      simp [h.1]

theorem splitWords_single (s : String) (h : hasSpace s = false) :
    splitWords s = [s] := by
  have hall : s.data.all (fun c => ¬ c = ' ') = true := by
    simp only [hasSpace, List.any_eq_false] at h
    simp only [List.all_eq_true, decide_eq_true_eq]
    intro c hc
    simpa using h c hc
  simp [splitWords, splitChars_no_sep ' ' s.data hall]

/-- A callback registered in `this.callbacks`. User callbacks are opaque
identifiers; `envHandler` is the closure the constructor registers on the
`bedspace:ev` channel (lines 347-349); `sysHandler` stands for the other
constructor-installed handlers (player tracking, command relay,
`client_entered_world`), which never fire in the scenarios proved here. -/
inductive CB where
  | user (id : Nat)
  | envHandler
  | sysHandler (tag : Nat)
deriving DecidableEq

/-- Generic association-list lookup (JS property read on a string-keyed
map object, `undefined` as `none`). -/
def lookupA {α : Type} : List (String × α) → String → Option α
  | [], _ => none
  | (k, v) :: rest, key => if k = key then some v else lookupA rest key

/-- Generic association-list write (JS property assignment). -/
def setA {α : Type} : List (String × α) → String → α → List (String × α)
  | [], k, v => [(k, v)]
  | (k0, v0) :: rest, k, v =>
      if k0 = k then (k0, v) :: rest else (k0, v0) :: setA rest k v

theorem lookupA_setA {α : Type} (m : List (String × α)) (k : String) (v : α) (key : String) :
    lookupA (setA m k v) key = if key = k then some v else lookupA m key := by
  induction m with
  | nil => simp [setA, lookupA, eq_comm]
  | cons hd tl ih =>
      obtain ⟨k0, v0⟩ := hd
      by_cases h0 : k0 = k <;> by_cases h1 : k0 = key <;> by_cases h2 : key = k <;>
        simp_all [setA, lookupA]

/-- Whether the system was registered as client or server (line 310/315). -/
inductive SysType where
  | client
  | server
deriving DecidableEq

/-- The `DevBed` instance state touched by the event claims: the
`bedspace` prefix, the callback registry, the set of names subscribed on
the host via `listenForEvent`, the default payloads for colon-free custom
events, the host's registered event-data templates, and the id counter. -/
structure Bed where
  bedspace : String
  callbacks : List (String × List CB)
  hostListened : List String
  defaultData : List (String × Obj)
  hostEventData : List (String × Obj)
  ids : Int

/-- `DevBed.on` (lines 577-585): split the compound name; for a name with
no callback list yet (not even an empty one), subscribe to host delivery
when the name contains a colon and create the list; finally push the
callback. -/
def onB (s : Bed) (event : String) (cb : CB) : Bed :=
  (splitWords event).foldl
    (fun st ev =>
      match lookupA st.callbacks ev with
      | none =>
          let st' := if hasColon ev then { st with hostListened := st.hostListened ++ [ev] } else st
          { st' with callbacks := setA st'.callbacks ev [cb] }
      | some l => { st with callbacks := setA st.callbacks ev (l ++ [cb]) })
    s

/-- `DevBed.off` (lines 593-598): with a callback, lodash `_.pull` removes
every occurrence of it when the list exists (pulling from an absent key
changes nothing); with no callback, the entry is set to a fresh empty
list. -/
def offB (s : Bed) (event : String) (cb : Option CB) : Bed :=
  (splitWords event).foldl
    (fun st ev =>
      match cb with
      | some c =>
          match lookupA st.callbacks ev with
          | none => st
          | some l => { st with callbacks := setA st.callbacks ev (l.filter (fun x => x ≠ c)) }
      | none => { st with callbacks := setA st.callbacks ev [] })
    s

/-- One synchronous invocation of a user callback: its identifier and the
first argument it receives. -/
abbrev Invocation := Nat × Val

/-- `DevBed.callEachCallback` (lines 552-555) together with the
`bedspace:ev` envelope handler of line 347: user callbacks produce an
invocation record; the envelope handler destructures `sendName` and
`data` from the envelope object and dispatches the inner event. The fuel
bounds envelope nesting (each recursion strips one `envHandler` level). -/
def callEachF (s : Bed) : Nat → String → Val → List Invocation
  | 0, _, _ => []
  | fuel+1, name, payload =>
      ((lookupA s.callbacks name).getD []).flatMap
        (fun cb =>
          match cb with
          | .user i => [(i, payload)]
          | .envHandler =>
              match payload with
              | .vObj env =>
                  let sendName := match lookupObj env "sendName" with
                    | some (.vStr n) => n
                    | _ => ""
                  let inner := (lookupObj env "data").getD (.vObj [])
                  callEachF s fuel sendName inner
              | _ => []
          | .sysHandler _ => [])

/-- `DevBed.newEvent` (lines 563-566): colon-free names store a default
payload locally; colon names register event data with the host. -/
def newEventB (s : Bed) (ev : String) (dflt : Obj) : Bed :=
  if hasColon ev = false then { s with defaultData := setA s.defaultData ev dflt }
  else { s with hostEventData := setA s.hostEventData ev dflt }

/-- `DevBed.trigger`, colon branch (lines 640-653): build event data from
the registered template for the name, or fall back to the
`bedspace:blank` template stamped with the name; shallow-merge the
supplied payload into its `data`; broadcast. The claims assume the host
loops a broadcast back to this instance, so delivery happens exactly when
the name was subscribed via `listenForEvent`; the subscription handler
(line 580) passes the event's `data` to `callEachCallback`. -/
def triggerColon (s : Bed) (name : String) (d : Obj) : List Invocation :=
  let tmpl : Obj :=
    match lookupA s.hostEventData name with
    | some t => t
    | none => (lookupA s.hostEventData (s.bedspace ++ ":blank")).getD []
  let finalData := mergeObj tmpl d
  if name ∈ s.hostListened then callEachF s 2 name (.vObj finalData) else []

/-- `DevBed.trigger` (lines 627-654). For a colon-free name: allocate a
reply id, register it as a host event, optionally register the reply
callback on it, and relay the envelope (`sendName`, default-data-merged
payload, reply id) over the `bedspace:ev` channel. The pair returned is
the updated state and the synchronous user-callback invocations caused by
the looped-back broadcast. -/
def triggerB (s : Bed) (name : String) (dataOrCb : Obj) (callback : Option CB) :
    Bed × List Invocation :=
  if hasColon name = false then
    let idPair := getId s.bedspace s.ids
    let s1 := { s with ids := idPair.2 }
    let s2 := newEventB s1 idPair.1 []
    let s3 := match callback with
      | some cb => onB s2 idPair.1 cb
      | none => s2
    let merged := mergeObj ((lookupA s.defaultData name).getD []) dataOrCb
    let env : Obj := [("sendName", .vStr name), ("data", .vObj merged), ("id", .vStr idPair.1)]
    (s3, triggerColon s3 (s.bedspace ++ ":ev") env)
  else (s, triggerColon s name dataOrCb)

/-- Host-side delivery of event `e` to this instance: the handler
installed by `listenForEvent` (line 580) exists only if `e` was
subscribed there. -/
def hostDeliver (s : Bed) (e : String) (payload : Val) : List Invocation :=
  if e ∈ s.hostListened then callEachF s 2 e payload else []

/-- The event wiring performed by the `DevBed` constructor (lines
341-385), restricted to the modelled state: pre-registered `bedspace`
events, the `bedspace:ev` envelope listener, and the client/server
specific listeners (opaque `sysHandler`s). -/
def construct (bedspace : String) (systemType : SysType) : Bed :=
  let s0 : Bed := ⟨bedspace, [], [], [], [], -1⟩
  let s1 := newEventB s0 (bedspace ++ ":DevBedEvent") [("isDevBed", .vBool true)]
  let s2 := newEventB s1 (bedspace ++ ":ev")
    [("sendName", .vStr ""), ("id", .vStr ""), ("data", .vObj [])]
  let s3 := onB s2 (bedspace ++ ":ev") .envHandler
  let s4 := newEventB s3 (bedspace ++ ":blank") []
  let s5 := newEventB s4 (bedspace ++ ":playerJoined") [("player", .vObj [])]
  let s6 := newEventB s5 (bedspace ++ ":playerLeft") [("player", .vObj [])]
  let s7 := match systemType with
    | .client => onB s6 "minecraft:client_entered_world" (.sysHandler 0)
    | .server => onB (onB s6 (bedspace ++ ":playerJoined") (.sysHandler 1))
        (bedspace ++ ":playerLeft") (.sysHandler 2)
  let s8 := newEventB s7 (bedspace ++ ":executeCommand") []
  match systemType with
  | .server => onB s8 (bedspace ++ ":executeCommand") (.sysHandler 3)
  | .client => s8

theorem onB_single (s : Bed) (n : String) (cb : CB)
    (hc : hasColon n = false) (hs : hasSpace n = false) :
    onB s n cb =
      { s with callbacks := setA s.callbacks n ((lookupA s.callbacks n).getD [] ++ [cb]) } := by
  rw [onB, splitWords_single n hs]
  simp only [List.foldl_cons, List.foldl_nil]
  cases hl : lookupA s.callbacks n with
  | none => simp [hl, hc]
  | some l => simp [hl]

theorem hasColon_append_right (b t : String) (h : hasColon t = true) :
    hasColon (b ++ t) = true := by
  simp only [hasColon, String.data_append, List.any_append, Bool.or_eq_true]
  right
  exact h

theorem hasColon_append_left (b t : String) (h : hasColon b = true) :
    hasColon (b ++ t) = true := by
  simp only [hasColon, String.data_append, List.any_append, Bool.or_eq_true]
  left
  exact h

theorem hasColon_getIdStr (b : String) (i : Int) : hasColon (getIdStr b i) = true := by
  rw [getIdStr, String.append_assoc]
  apply hasColon_append_right
  apply hasColon_append_left
  decide

theorem ne_of_hasColon (n m : String) (hn : hasColon n = false) (hm : hasColon m = true) :
    m ≠ n := by
  intro he
  rw [he, hn] at hm
  exact Bool.false_ne_true hm

theorem filter_flatMap_users (g : CB → List Invocation) (p : Val) (c : Nat)
    (hg1 : ∀ i, g (CB.user i) = [(i, p)])
    (hg2 : ∀ t, g (CB.sysHandler t) = [])
    (L : List CB) (h : ∀ x ∈ L, x ≠ CB.envHandler ∧ x ≠ CB.user c) :
    (L.flatMap g).filter (fun iv => iv.1 == c) = [] := by
  induction L with
  | nil => rfl
  | cons x rest ih =>
      have hx := h x (by simp)
      have hrest : ∀ y ∈ rest, y ≠ CB.envHandler ∧ y ≠ CB.user c :=
        fun y hy => h y (by simp [hy])
      cases x with
      | user i =>
          have hic : ¬ (i = c) := fun he => hx.2 (by rw [he])
          simp [List.flatMap_cons, List.filter_append, hg1, hic, ih hrest]
      | envHandler => exact absurd rfl hx.1
      | sysHandler t =>
          simp [List.flatMap_cons, List.filter_append, hg2, ih hrest]

theorem filter_flatMap_users_append (g : CB → List Invocation) (p : Val) (c : Nat)
    (hg1 : ∀ i, g (CB.user i) = [(i, p)])
    (hg2 : ∀ t, g (CB.sysHandler t) = [])
    (L : List CB) (h : ∀ x ∈ L, x ≠ CB.envHandler ∧ x ≠ CB.user c) :
    ((L ++ [CB.user c]).flatMap g).filter (fun iv => iv.1 == c) = [(c, p)] := by
  rw [List.flatMap_append, List.filter_append,
    filter_flatMap_users g p c hg1 hg2 L h]
  simp [hg1]

theorem callEachF_succ (s : Bed) (fuel : Nat) (name : String) (payload : Val) :
    callEachF s (fuel+1) name payload =
      ((lookupA s.callbacks name).getD []).flatMap
        (fun cb =>
          match cb with
          | .user i => [(i, payload)]
          | .envHandler =>
              match payload with
              | .vObj env =>
                  let sendName := match lookupObj env "sendName" with
                    | some (.vStr n) => n
                    | _ => ""
                  let inner := (lookupObj env "data").getD (.vObj [])
                  callEachF s fuel sendName inner
              | _ => []
          | .sysHandler _ => []) := rfl

/-- The state after the local branch of `trigger` (lines 628-639) has
allocated the reply id and registered it as a host event (`newEvent` on a
colon-containing id registers event data): only `ids` and
`hostEventData` change. -/
def triggerLocalState (s : Bed) : Bed :=
  ⟨s.bedspace, s.callbacks, s.hostListened, s.defaultData,
    setA s.hostEventData (getIdStr s.bedspace (s.ids + 1)) [], s.ids + 1⟩

/-- The envelope object relayed over `bedspace:ev` by the local branch of
`trigger` (lines 632-639): the real event name, the default payload for
that name shallow-merged with the supplied data, and the reply id. -/
def triggerLocalEnv (s : Bed) (name : String) (d : Obj) : Obj :=
  [("sendName", Val.vStr name),
   ("data", Val.vObj (mergeObj ((lookupA s.defaultData name).getD []) d)),
   ("id", Val.vStr (getIdStr s.bedspace (s.ids + 1)))]

theorem triggerB_local (s : Bed) (name : String) (d : Obj) (hc : hasColon name = false) :
    triggerB s name d none =
      (triggerLocalState s,
        triggerColon (triggerLocalState s) (s.bedspace ++ ":ev") (triggerLocalEnv s name d)) := by
  simp only [triggerB, if_pos hc, getId, newEventB, hasColon_getIdStr, triggerLocalState,
    triggerLocalEnv]
  simp

theorem callEachF_envelope (T : Bed) (evName n idv : String) (c : Nat)
    (L : List CB) (tmpl merged : Obj)
    (hev : lookupA T.callbacks evName = some [CB.envHandler])
    (hcbn : lookupA T.callbacks n = some (L ++ [CB.user c]))
    (hprev : ∀ x ∈ L, x ≠ CB.envHandler ∧ x ≠ CB.user c) :
    (callEachF T 2 evName (Val.vObj (mergeObj tmpl
        [("sendName", Val.vStr n), ("data", Val.vObj merged), ("id", Val.vStr idv)]))).filter
      (fun iv => iv.1 == c) = [(c, Val.vObj merged)] := by
  rw [show (2 : Nat) = 1 + 1 from rfl, callEachF_succ, hev]
  simp only [Option.getD_some, List.flatMap_cons, List.flatMap_nil, List.append_nil]
  have hnodup :
      ((([("sendName", Val.vStr n), ("data", Val.vObj merged), ("id", Val.vStr idv)]) :
        Obj).map Prod.fst).Nodup := by
    simp
  rw [lookupObj_mergeObj tmpl _ "sendName" hnodup, lookupObj_mergeObj tmpl _ "data" hnodup]
  have hsend :
      lookupObj [("sendName", Val.vStr n), ("data", Val.vObj merged), ("id", Val.vStr idv)]
        "sendName" = some (Val.vStr n) := by
    simp [lookupObj]
  have hdat :
      lookupObj [("sendName", Val.vStr n), ("data", Val.vObj merged), ("id", Val.vStr idv)]
        "data" = some (Val.vObj merged) := by
    simp [lookupObj]
  rw [hsend, hdat]
  simp only [Option.getD_some]
  rw [show (1 : Nat) = 0 + 1 from rfl, callEachF_succ, hcbn]
  simp only [Option.getD_some]
  exact filter_flatMap_users_append _ (Val.vObj merged) c (fun i => rfl) (fun t => rfl) L hprev

/-- C1: for a colon-free event name `n` (a single name, no space) and a
callback `c` not already registered for `n`, `on(n, c)` followed by
`trigger(n, data)` invokes `c` exactly once, receiving the registered
default payload for `n` shallow-merged with `data` (fields of `data`
winning), assuming the host loops the broadcast `bedspace:ev` envelope
back to the instance's own listener (`hev`, `hlisten`: the
constructor-installed envelope wiring is in place). -/
theorem trigger_local_invokes_registered_callback_once
    (s : Bed) (n : String) (c : Nat) (d : Obj)
    (hc : hasColon n = false) (hs : hasSpace n = false)
    (hev : lookupA s.callbacks (s.bedspace ++ ":ev") = some [CB.envHandler])
    (hlisten : (s.bedspace ++ ":ev") ∈ s.hostListened)
    (hprev : ∀ x ∈ (lookupA s.callbacks n).getD [], x ≠ CB.envHandler ∧ x ≠ CB.user c) :
    (triggerB (onB s n (CB.user c)) n d none).2.filter (fun iv => iv.1 == c) =
      [(c, Val.vObj (mergeObj ((lookupA s.defaultData n).getD []) d))] := by
  rw [onB_single s n (CB.user c) hc hs, triggerB_local _ n d hc]
  have hneq : s.bedspace ++ ":ev" ≠ n :=
    ne_of_hasColon n (s.bedspace ++ ":ev") hc
      (hasColon_append_right s.bedspace ":ev" (by decide))
  have hev' :
      lookupA (setA s.callbacks n ((lookupA s.callbacks n).getD [] ++ [CB.user c]))
        (s.bedspace ++ ":ev") = some [CB.envHandler] := by
    rw [lookupA_setA, if_neg hneq, hev]
  have hcbn :
      lookupA (setA s.callbacks n ((lookupA s.callbacks n).getD [] ++ [CB.user c])) n =
        some ((lookupA s.callbacks n).getD [] ++ [CB.user c]) := by
    rw [lookupA_setA, if_pos rfl]
  dsimp only [triggerLocalState, triggerLocalEnv, triggerColon]
  rw [if_pos hlisten]
  exact callEachF_envelope _ _ n _ c _ _ _ hev' hcbn hprev

theorem offB_none_single (s : Bed) (e : String) (hs : hasSpace e = false) :
    offB s e none = { s with callbacks := setA s.callbacks e [] } := by
  rw [offB, splitWords_single e hs]
  simp

theorem onB_some_single (s : Bed) (e : String) (cb : CB) (l : List CB)
    (hs : hasSpace e = false) (hl : lookupA s.callbacks e = some l) :
    onB s e cb = { s with callbacks := setA s.callbacks e (l ++ [cb]) } := by
  rw [onB, splitWords_single e hs]
  simp [hl]

/-- C10: for a colon-containing event name `e` never registered via `on`
(`this.callbacks[e]` undefined) and not subscribed on the host, calling
`off(e)` with no callback sets the callback list to an empty array; a
later `on(e, c)` finds that (truthy) empty array, appends `c`, and never
calls `system.listenForEvent` for `e` — so host-delivered occurrences of
`e` never invoke `c`. -/
theorem off_before_on_skips_host_subscription
    (s : Bed) (e : String) (c : Nat) (payload : Val)
    (_hc : hasColon e = true) (hs : hasSpace e = false)
    (_hnew : lookupA s.callbacks e = none)
    (hnl : e ∉ s.hostListened) :
    lookupA (onB (offB s e none) e (CB.user c)).callbacks e = some [CB.user c] ∧
    (onB (offB s e none) e (CB.user c)).hostListened = s.hostListened ∧
    hostDeliver (onB (offB s e none) e (CB.user c)) e payload = [] := by
  rw [offB_none_single s e hs]
  have hl : lookupA (setA s.callbacks e []) e = some [] := by
    rw [lookupA_setA, if_pos rfl]
  rw [onB_some_single _ e (CB.user c) [] hs hl]
  refine ⟨?_, rfl, ?_⟩
  · show lookupA (setA (setA s.callbacks e []) e ([] ++ [CB.user c])) e = some [CB.user c]
    rw [lookupA_setA, if_pos rfl]
    rfl
  · rw [hostDeliver]
    exact if_neg hnl

/-! ## `once` and its self-removing wrapper (lines 607-615) -/

/-- The per-event-name state used to analyse `once(n, c)`: the live
callback list `this.callbacks[n]` (callback identifiers, with `w` the
`handleFire` wrapper), whether the bluebird promise created by `once` has
resolved, and how many times the user callback attached to it by `maybe`
(via `promise.then`, line 411) has been invoked. -/
structure OnceState where
  entries : List Nat
  promResolved : Bool
  userCbInvocations : Nat
deriving DecidableEq

/-- Firing one registered callback during dispatch. Callbacks other than
the `handleFire` wrapper `w` do not touch the modelled state.
`handleFire` (lines 609-612) first calls `off(event, handleFire)` —
lodash `_.pull` removes every occurrence of itself from the live list —
then resolves the promise; resolving an already-resolved promise is a
no-op, and the first resolution invokes the attached user callback. -/
def fireEntry (w : Nat) (e : Nat) (s : OnceState) : OnceState :=
  if e = w then
    let s1 : OnceState := ⟨s.entries.filter (fun x => x ≠ w), s.promResolved, s.userCbInvocations⟩
    if s1.promResolved then s1
    else ⟨s1.entries, true, s1.userCbInvocations + 1⟩
  else s

/-- The dispatch loop of `callEachCallback` (line 554): JS
`Array.prototype.map` caches the original length (the fuel) and reads the
live array by index, skipping indices beyond the current length. -/
def dispatchSteps (w : Nat) : Nat → Nat → OnceState → OnceState
  | 0, _, s => s
  | fuel+1, idx, s =>
      let s' := if hh : idx < s.entries.length then fireEntry w s.entries[idx] s else s
      dispatchSteps w fuel (idx+1) s'

/-- One `trigger(n, ...)` dispatch over the callback list of `n`. -/
def trigger1 (w : Nat) (s : OnceState) : OnceState :=
  dispatchSteps w s.entries.length 0 s

/-- State right after `once(n, c)`: `on(n, handleFire)` appended the
wrapper `w` to the pre-existing list `base` (line 613), the promise is
unresolved and the user callback has not run. -/
def onceState (base : List Nat) (w : Nat) : OnceState := ⟨base ++ [w], false, 0⟩

/-- The invariant tying the wrapper to its promise: the user callback has
run exactly when the promise is resolved, and a resolved promise means
the wrapper has been pulled from the live list. -/
def onceInv (w : Nat) (s : OnceState) : Prop :=
  s.userCbInvocations = (if s.promResolved then 1 else 0) ∧
  (s.promResolved = true → w ∉ s.entries)

theorem fireEntry_inv (w e : Nat) (s : OnceState) (h : onceInv w s) :
    onceInv w (fireEntry w e s) := by
  obtain ⟨h1, h2⟩ := h
  rw [fireEntry]
  by_cases he : e = w
  · rw [if_pos he]
    cases hres : s.promResolved with
    | true =>
        simp only [hres, if_pos]
        refine ⟨by simpa [hres] using h1, fun _ => ?_⟩
        simp [List.mem_filter]
    | false =>
        simp only [hres, Bool.false_eq_true, if_neg, not_false_iff]
        refine ⟨by simp [h1, hres], fun _ => ?_⟩
        simp [List.mem_filter]
  · rw [if_neg he]
    exact ⟨h1, h2⟩

theorem fireEntry_resolved_mono (w e : Nat) (s : OnceState) (h : s.promResolved = true) :
    (fireEntry w e s).promResolved = true := by
  rw [fireEntry]
  by_cases he : e = w
  · simp [he, h]
  · simp [he, h]

theorem dispatchSteps_inv (w : Nat) (fuel : Nat) :
    ∀ (idx : Nat) (s : OnceState), onceInv w s → onceInv w (dispatchSteps w fuel idx s) := by
  induction fuel with
  | zero => intro idx s h; exact h
  | succ f ih =>
      intro idx s h
      rw [dispatchSteps]
      by_cases hh : idx < s.entries.length
      · simp only [hh, dif_pos]
        exact ih (idx+1) _ (fireEntry_inv w _ s h)
      · simp only [hh, dif_neg, not_false_iff]
        exact ih (idx+1) s h

theorem dispatchSteps_resolved_mono (w : Nat) (fuel : Nat) :
    ∀ (idx : Nat) (s : OnceState), s.promResolved = true →
      (dispatchSteps w fuel idx s).promResolved = true := by
  induction fuel with
  | zero => intro idx s h; exact h
  | succ f ih =>
      intro idx s h
      rw [dispatchSteps]
      by_cases hh : idx < s.entries.length
      · simp only [hh, dif_pos]
        exact ih (idx+1) _ (fireEntry_resolved_mono w _ s h)
      · simp only [hh, dif_neg, not_false_iff]
        exact ih (idx+1) s h

theorem trigger1_inv (w : Nat) (s : OnceState) (h : onceInv w s) :
    onceInv w (trigger1 w s) := dispatchSteps_inv w _ 0 s h

theorem trigger1_resolved_mono (w : Nat) (s : OnceState) (h : s.promResolved = true) :
    (trigger1 w s).promResolved = true := dispatchSteps_resolved_mono w _ 0 s h

theorem iterate_trigger1_inv (w : Nat) (k : Nat) (s : OnceState) (h : onceInv w s) :
    onceInv w ((trigger1 w)^[k] s) := by
  induction k generalizing s with
  | zero => exact h
  | succ m ih => rw [Function.iterate_succ_apply]; exact ih _ (trigger1_inv w s h)

theorem iterate_trigger1_resolved_mono (w : Nat) (k : Nat) (s : OnceState)
    (h : s.promResolved = true) : ((trigger1 w)^[k] s).promResolved = true := by
  induction k generalizing s with
  | zero => exact h
  | succ m ih => rw [Function.iterate_succ_apply]; exact ih _ (trigger1_resolved_mono w s h)

theorem dispatchSteps_once (w : Nat) (base : List Nat) (hw : w ∉ base) (inv : Nat) :
    ∀ (r k : Nat), base.length - k = r → k ≤ base.length →
      dispatchSteps w (base.length + 1 - k) k ⟨base ++ [w], false, inv⟩ =
        ⟨base, true, inv + 1⟩ := by
  intro r
  induction r with
  | zero =>
      intro k hrk hk
      have hkeq : k = base.length := by omega
      subst hkeq
      rw [show base.length + 1 - base.length = 1 from by omega, dispatchSteps]
      have hlt : base.length < (base ++ [w]).length := by simp
      rw [dif_pos hlt]
      have hget : (base ++ [w])[base.length] = w :=
        List.getElem_concat_length base w base.length rfl hlt
      rw [hget, fireEntry, if_pos rfl]
      have hfilter : (base ++ [w]).filter (fun x => x ≠ w) = base := by
        rw [List.filter_append]
        have h1 : base.filter (fun x => x ≠ w) = base :=
          List.filter_eq_self.mpr (fun a ha => by
            simp only [decide_eq_true_eq]
            exact fun he => hw (he ▸ ha))
        have h2 : [w].filter (fun x => x ≠ w) = [] := by simp
        rw [h1, h2, List.append_nil]
      simp only [hfilter]
      rw [dispatchSteps]
      simp
  | succ r ih =>
      intro k hrk hk
      have hklt : k < base.length := by omega
      rw [show base.length + 1 - k = (base.length + 1 - (k+1)) + 1 from by omega, dispatchSteps]
      have hlt : k < (base ++ [w]).length := by simp; omega
      rw [dif_pos hlt]
      have hget : (base ++ [w])[k] = base[k] := List.getElem_append_left hklt
      have hne : base[k] ≠ w := fun he => hw (he ▸ base.getElem_mem hklt)
      rw [hget, fireEntry, if_neg hne]
      exact ih (k+1) (by omega) (by omega)

/-- The first `trigger` after `once` fires the wrapper: every earlier
callback in the list leaves the modelled state alone, then `handleFire`
deregisters itself and resolves the promise, invoking the attached user
callback once. -/
theorem trigger1_onceState (base : List Nat) (w : Nat) (hw : w ∉ base) :
    trigger1 w (onceState base w) = ⟨base, true, 1⟩ := by
  rw [trigger1, onceState]
  have hlen : ((⟨base ++ [w], false, 0⟩ : OnceState).entries).length = base.length + 1 := by
    simp
  rw [hlen]
  have := dispatchSteps_once w base hw 0 base.length 0 (by omega) (by omega)
  rw [show base.length + 1 - 0 = base.length + 1 from by omega] at this
  exact this

/-- C6: after `once(n, c)` registers the self-removing `handleFire`
wrapper `w` behind the pre-existing callbacks `base`, the user callback
runs at most once across any number `k` of subsequent `trigger(n, ...)`
dispatches; once at least one dispatch has happened, the promise returned
by the no-callback form has resolved, the callback has run exactly once,
and the wrapper is deregistered; the first dispatch leaves exactly the
pre-existing callbacks registered. -/
theorem once_invokes_at_most_once (base : List Nat) (w : Nat) (k : Nat) (hw : w ∉ base) :
    ((trigger1 w)^[k] (onceState base w)).userCbInvocations ≤ 1 ∧
    (1 ≤ k →
      ((trigger1 w)^[k] (onceState base w)).promResolved = true ∧
      ((trigger1 w)^[k] (onceState base w)).userCbInvocations = 1 ∧
      w ∉ ((trigger1 w)^[k] (onceState base w)).entries) ∧
    trigger1 w (onceState base w) = ⟨base, true, 1⟩ := by
  have hinv0 : onceInv w (onceState base w) := by
    constructor
    · rfl
    · intro h
      simp [onceState] at h
  have hiter := iterate_trigger1_inv w k _ hinv0
  refine ⟨?_, ?_, trigger1_onceState base w hw⟩
  · rw [hiter.1]
    by_cases hres : ((trigger1 w)^[k] (onceState base w)).promResolved <;> simp [hres]
  · intro hk
    obtain ⟨m, rfl⟩ : ∃ m, k = m + 1 := ⟨k - 1, by omega⟩
    rw [Function.iterate_succ_apply, trigger1_onceState base w hw]
    have hinv1 : onceInv w (⟨base, true, 1⟩ : OnceState) := ⟨by simp, fun _ => hw⟩
    have hres := iterate_trigger1_resolved_mono w m ⟨base, true, 1⟩ rfl
    have hinv2 := iterate_trigger1_inv w m _ hinv1
    refine ⟨hres, ?_, hinv2.2 hres⟩
    rw [hinv2.1, hres]
    simp

/-! ## `cmd` and `maybe` (lines 400-416, 741-772) -/

/-- The value a call to `cmd` evaluates to. -/
inductive CmdRet where
  | promise (p : Nat)
  | void
deriving DecidableEq

/-- Whether a `CmdRet` is a promise. -/
def isPromiseRet : CmdRet → Bool
  | .promise _ => true
  | .void => false

/-- The `callbackOrAs` argument of `cmd(command, callbackOrAs?, callback?)`:
a callback function, a player selector (string or array), or absent. -/
inductive CbOrAs where
  | func (cb : Nat)
  | asNames (names : List String)
  | absent
deriving DecidableEq

/-- `typeof callbackOrAs === "function" ? callbackOrAs : callback`
(line 758): the callback that `maybe` receives. -/
def effectiveCb (callbackOrAs : CbOrAs) (callback : Option Nat) : Option Nat :=
  match callbackOrAs with
  | .func c => some c
  | _ => callback

/-- What `cmd` produced: its return value, the callback subscribed to the
result promise by `maybe` (via `promise.then`, line 411), and the custom
events triggered to relay the command (line 756). -/
structure CmdOutcome where
  ret : CmdRet
  attached : Option Nat
  relayed : List String
deriving DecidableEq

/-- `DevBed.maybe` (lines 408-416): with no callback the promise itself
is returned; with one, the callback is subscribed to the promise and
`undefined` is returned — never both. -/
def maybe (cb : Option Nat) (p : Nat) : CmdRet × Option Nat :=
  match cb with
  | none => (.promise p, none)
  | some c => (.void, some c)

/-- `DevBed.cmd` (lines 755-772). On a non-server instance the call is
relayed as a `bedspace:executeCommand` custom event and the method falls
through returning `undefined`; on a server instance the effective
callback is combined via `maybe` with a fresh promise `p` for the host's
structured result. -/
def cmdModel (bedspace : String) (systemType : SysType) (callbackOrAs : CbOrAs)
    (callback : Option Nat) (p : Nat) : CmdOutcome :=
  match systemType with
  | .client => ⟨.void, none, [bedspace ++ ":executeCommand"]⟩
  | .server =>
      let r := maybe (effectiveCb callbackOrAs callback) p
      ⟨r.1, r.2, []⟩

/-- Completion of the command (line 769): the host invokes the
`executeCommand` callback with the structured result, resolving the
promise; the first component is what a returned promise resolves with,
the second the callback invocations performed by `maybe`'s
subscription. -/
def cmdComplete (o : CmdOutcome) (result : Obj) : Option Obj × List (Nat × Obj) :=
  (match o.ret with
   | .promise _ => some result
   | .void => none,
   match o.attached with
   | some c => [(c, result)]
   | none => [])

/-- C2 counterexample: on a client-side instance, `cmd` with no callback
supplied does not return a promise — it relays the command over the
custom-event channel and returns `undefined` — contradicting the claim
that the promise branch applies to every invocation including
client-side instances. -/
theorem cmd_client_returns_no_promise :
    isPromiseRet (cmdModel "devbed" SysType.client CbOrAs.absent none 0).ret = false ∧
    (cmdModel "devbed" SysType.client CbOrAs.absent none 0).ret = CmdRet.void := ⟨rfl, rfl⟩

/-- C2 amended: on a server-side instance `cmd` obeys the strict
either/or contract — no callback: a promise resolving with the host's
structured result is returned and no callback runs; callback supplied:
it is invoked with the result exactly once and nothing is returned. On a
client-side instance `cmd` always returns void and relays the command
via the `bedspace:executeCommand` custom event. -/
theorem cmd_dual_convention (b : String) (coa : CbOrAs) (cb : Option Nat) (p : Nat)
    (result : Obj) :
    ((effectiveCb coa cb = none →
        (cmdModel b SysType.server coa cb p).ret = CmdRet.promise p ∧
        cmdComplete (cmdModel b SysType.server coa cb p) result = (some result, [])) ∧
      (∀ c, effectiveCb coa cb = some c →
        (cmdModel b SysType.server coa cb p).ret = CmdRet.void ∧
        cmdComplete (cmdModel b SysType.server coa cb p) result = (none, [(c, result)]))) ∧
    (cmdModel b SysType.client coa cb p).ret = CmdRet.void ∧
    (cmdModel b SysType.client coa cb p).relayed = [b ++ ":executeCommand"] := by
  refine ⟨⟨?_, ?_⟩, rfl, rfl⟩
  · intro h
    simp [cmdModel, maybe, cmdComplete, h]
  · intro c h
    simp [cmdModel, maybe, cmdComplete, h]

/-! ## Constructor collision check (line 341) -/

/-- The chat warning posted on collision: `ChatCodes.yellow` followed by
the conflict text of line 341. -/
def conflictMessage (bedspace : String) : String :=
  "§e" ++ "Conflict detected. Please ensure the " ++ bedspace ++
    " namespace is not used by other scripts. If the issue persists, try changing your bedspace."

/-- The observable outcome of the constructor's collision handling:
whether an error was raised during construction, and the chat messages
posted. -/
structure CtorCheck where
  errorRaised : Option String
  chatMessages : List String
deriving DecidableEq

/-- Line 341: when the instance is a server system and the host already
has event data for `bedspace:DevBedEvent` (another script claimed the
namespace), `this.chat(...)` posts a warning; construction continues on
every path and nothing is thrown. -/
def collisionCheck (systemType : SysType) (hostHasBedspaceEvent : Bool) (bedspace : String) :
    CtorCheck :=
  if systemType = SysType.server ∧ hostHasBedspaceEvent then ⟨none, [conflictMessage bedspace]⟩
  else ⟨none, []⟩

/-- C3 counterexample: constructing a second instance whose bedspace is
already claimed on a server host raises no error during construction —
the check posts a chat warning and continues. -/
theorem collision_raises_no_error :
    (collisionCheck SysType.server true "devbed").errorRaised = none ∧
    (collisionCheck SysType.server true "devbed").chatMessages =
      [conflictMessage "devbed"] := by
  constructor <;> rfl

/-- C3 amended: the constructor's collision handling never raises; it
posts the conflict chat warning exactly when the instance is a server
system and the namespace is already in use (client instances do not
detect the collision at all). -/
theorem collision_warns_and_continues (st : SysType) (h : Bool) (b : String) :
    (collisionCheck st h b).errorRaised = none ∧
    ((collisionCheck st h b).chatMessages = [conflictMessage b] ↔
      (st = SysType.server ∧ h = true)) := by
  cases st <;> cases h <;> simp [collisionCheck]

/-! ## Component helpers (`transformComponent`, lines 481-515) -/

/-- The host's component store: component data per (entity, component id)
pair — the collaborator behind `hasComponent` / `createComponent` /
`getComponent` / `applyComponentChanges`, assumed (as the claims state)
to store applied changes faithfully. -/
abbrev Host := List ((Nat × String) × Obj)

def lookupH : Host → Nat × String → Option Obj
  | [], _ => none
  | (k, v) :: rest, key => if k = key then some v else lookupH rest key

def setH : Host → Nat × String → Obj → Host
  | [], k, v => [(k, v)]
  | (k0, v0) :: rest, k, v =>
      if k0 = k then (k0, v) :: rest else (k0, v0) :: setH rest k v

theorem lookupH_setH (m : Host) (k : Nat × String) (v : Obj) (key : Nat × String) :
    lookupH (setH m k v) key = if key = k then some v else lookupH m key := by
  induction m with
  | nil => simp [setH, lookupH, eq_comm]
  | cons hd tl ih =>
      obtain ⟨k0, v0⟩ := hd
      by_cases h0 : k0 = k <;> by_cases h1 : k0 = key <;> by_cases h2 : key = k <;>
        simp_all [setH, lookupH]

/-- `system.hasComponent(ent, id)` (line 500). -/
def hasComponent (h : Host) (ent : Nat) (id : String) : Bool := (lookupH h (ent, id)).isSome

/-- `system.createComponent(ent, id)`: attaches the component with its
registered template data. -/
def createComponent (h : Host) (ent : Nat) (id : String) (tmpl : Obj) : Host :=
  setH h (ent, id) tmpl

/-- `system.getComponent(ent, id)`. -/
def getComponentH (h : Host) (ent : Nat) (id : String) : Option Obj := lookupH h (ent, id)

/-- `system.applyComponentChanges(ent, data)`. -/
def applyComponentChanges (h : Host) (ent : Nat) (id : String) (d : Obj) : Host :=
  setH h (ent, id) d

/-- The second argument of `BedComponent.data`: a plain object or a
function over the current data. -/
inductive Transform where
  | obj (o : Obj)
  | func (f : Obj → Obj)

/-- `DevBed.parseTransform` (lines 481-485) on component data (plain
objects): an object transform shallow-merges (`\x7b ...data, ...transform \x7d`);
a function transform is applied to the data. -/
def parseTransform (data : Obj) (t : Transform) : Obj :=
  match t with
  | .obj o => mergeObj data o
  | .func f => f data

/-- `BedComponent.add` (lines 496-499): with `existsOk = false` and the
component already on the entity, a `TypeError` is thrown before
`system.createComponent` is reached; otherwise the component is created.
Returns the (possibly updated) host state and the raised error. -/
def addComponent (h : Host) (tmpl : Obj) (id : String) (ent : Nat) (existsOk : Bool) :
    Host × Option String :=
  if !existsOk && hasComponent h ent id then (h, some "Component already exists!")
  else (createComponent h ent id tmpl, none)

/-- `BedComponent.data` (lines 501-507): with no argument, the current
component data is read (a missing component reads as `null`); with an
argument, a missing component raises `Component not found.`, otherwise
the parsed transform of the current data is applied to the host. -/
def dataComponent (h : Host) (id : String) (ent : Nat) (t : Option Transform) :
    Host × Except String (Option Obj) :=
  let curr := getComponentH h ent id
  match t with
  | none => (h, .ok curr)
  | some tr =>
      match curr with
      | none => (h, .error "Component not found.")
      | some c => (applyComponentChanges h ent id (parseTransform c tr), .ok none)

/-- C4: calling `add(entity, existsOk := false)` on an entity that
already holds the component raises before any host mutation — the host
state comes back unchanged — while the default `existsOk := true` raises
nothing. -/
theorem add_existing_raises_before_mutation
    (h : Host) (tmpl : Obj) (id : String) (ent : Nat)
    (hc : hasComponent h ent id = true) :
    (addComponent h tmpl id ent false).1 = h ∧
    (addComponent h tmpl id ent false).2 = some "Component already exists!" ∧
    (addComponent h tmpl id ent true).2 = none := by
  refine ⟨?_, ?_, rfl⟩ <;> simp [addComponent, hc]

/-- C5: for an entity currently holding component data `curr`, writing a
plain object `d` through `data(entity, d)` and reading back through
`data(entity)` yields exactly `curr` shallow-merged with `d`: every field
of `d` wins and every other prior field of `curr` is preserved (the host
stores applied component changes faithfully). -/
theorem data_roundtrip_shallow_merge
    (h : Host) (id : String) (ent : Nat) (curr d : Obj)
    (hcur : getComponentH h ent id = some curr)
    (hd : (d.map Prod.fst).Nodup) :
    (dataComponent h id ent (some (Transform.obj d))).2 = Except.ok none ∧
    (dataComponent (dataComponent h id ent (some (Transform.obj d))).1 id ent none).2 =
      Except.ok (some (mergeObj curr d)) ∧
    (∀ key v, lookupObj d key = some v → lookupObj (mergeObj curr d) key = some v) ∧
    (∀ key, lookupObj d key = none → lookupObj (mergeObj curr d) key = lookupObj curr key) := by
  have hwrite : dataComponent h id ent (some (Transform.obj d)) =
      (setH h (ent, id) (mergeObj curr d), Except.ok none) := by
    simp [dataComponent, hcur, parseTransform, applyComponentChanges]
  refine ⟨by rw [hwrite], ?_, ?_, ?_⟩
  · rw [hwrite]
    have hread : getComponentH (setH h (ent, id) (mergeObj curr d)) ent id =
        some (mergeObj curr d) := by
      rw [getComponentH, lookupH_setH, if_pos rfl]
    simp [dataComponent, hread]
  · intro key v hv
    rw [lookupObj_mergeObj curr d key hd, hv]
  · intro key hv
    rw [lookupObj_mergeObj curr d key hd, hv]

/-! ## Tick timers (`setInterval` / `setTimeout` / `clearInterval`,
lines 964-999) -/

/-- One entry of `this.intervalled` (line 254): tick threshold, the
callback, and the ticks elapsed so far. -/
structure IntervalEntry where
  time : Nat
  func : Nat
  passed : Nat
deriving DecidableEq

/-- `this.intervalled`: a numeric-keyed JS object, whose keys iterate in
ascending numeric order. -/
abbrev IntervalTable := List (Nat × IntervalEntry)

/-- `+_.findLastKey(this.intervalled) + 1 || 0` (line 965): the last —
and, numeric keys iterating in ascending order, largest — key plus one;
on an empty table `+undefined + 1` is `NaN`, so `|| 0` yields `0`. -/
def nextIntervalId (t : IntervalTable) : Nat :=
  match t.map Prod.fst with
  | [] => 0
  | k :: ks => ks.foldl max k + 1

/-- `DevBed.setInterval` (lines 964-972): allocate the next id and store
the entry with its tick threshold (milliseconds are pre-converted to
ticks on line 967; the threshold is taken here as ticks). -/
def setIntervalB (t : IntervalTable) (cb : Nat) (ticks : Nat) : IntervalTable × Nat :=
  let i := nextIntervalId t
  (t ++ [(i, ⟨ticks, cb, 0⟩)], i)

/-- `DevBed.clearInterval` (lines 979-982): `if (!id)` — JS falsiness —
replaces the table with a fresh empty object when `id` is `undefined` OR
the number `0`; otherwise `delete` removes the one entry. -/
def clearIntervalB (t : IntervalTable) (id : Option Nat) : IntervalTable :=
  match id with
  | none => []
  | some i => if i = 0 then [] else t.filter (fun kv => kv.1 ≠ i)

/-- `DevBed.setTimeout` (lines 991-999): registers an interval whose
callback clears its own id before running once; the registration effect
on the table is that of `setInterval`. -/
def setTimeoutB (t : IntervalTable) (cb : Nat) (ticks : Nat) : IntervalTable × Nat :=
  setIntervalB t cb ticks

/-- C9 (code bug): `setInterval` on an empty table genuinely hands out
the id `0`, yet `clearInterval(0)` falls into the falsy `if (!id)` branch
and wipes the whole table — the independent entry `1` disappears too,
contradicting the claim that exactly the one entry is removed. Nonzero
ids and the no-argument form behave as claimed. -/
theorem clearInterval_id_zero_clears_all :
    (setIntervalB [] 10 5).2 = 0 ∧
    clearIntervalB [(0, ⟨5, 10, 0⟩), (1, ⟨7, 11, 0⟩)] (some 0) = [] ∧
    clearIntervalB [(0, ⟨5, 10, 0⟩), (1, ⟨7, 11, 0⟩)] (some 1) = [(0, ⟨5, 10, 0⟩)] ∧
    clearIntervalB [(0, ⟨5, 10, 0⟩), (1, ⟨7, 11, 0⟩)] none = [] :=
  ⟨rfl, rfl, rfl, rfl⟩

/-! ## Regex parsing in `blockAt` / `locate` (lines 816-823, 872-879) -/

/-- One piece of the fixed regular expression used by `blockAt`: a
literal run, or a greedy `.+` (possibly the capturing group). -/
inductive Piece where
  | lit (cs : List Char)
  | dotPlus (capture : Bool)

/-- JS `.` without the dotAll flag: any character except the line
terminators `\n`, `\r`, U+2028 and U+2029. -/
def isDotChar (c : Char) : Bool :=
  !(c == '\n' || c == '\r' || c.toNat == 8232 || c.toNat == 8233)

/-- Length of the longest `.`-matchable prefix. -/
def dotPrefixLen : List Char → Nat
  | [] => 0
  | c :: cs => if isDotChar c then dotPrefixLen cs + 1 else 0

/-- Backtracking matcher for a piece list at a fixed position of the
subject, returning the captured groups; `.+` is greedy, trying the
longest (`m - 0`) split first and backtracking to shorter ones. The fuel
merely bounds the recursion depth: every recursive call strips one
piece, so `ps.length + 1` always suffices, and keeping the recursion
structural keeps the matcher kernel-evaluable. -/
def reMatchF : Nat → List Piece → List Char → Option (List (List Char))
  | 0, _, _ => none
  | _+1, [], _ => some []
  | fuel+1, .lit l :: ps, cs =>
      if l.isPrefixOf cs then reMatchF fuel ps (cs.drop l.length) else none
  | fuel+1, .dotPlus cap :: ps, cs =>
      let m := dotPrefixLen cs
      (List.range m).findSome? (fun j =>
        match reMatchF fuel ps (cs.drop (m - j)) with
        | some caps => some (if cap then cs.take (m - j) :: caps else caps)
        | none => none)

/-- Anchored match of the whole piece list at the current position. -/
def reMatch (ps : List Piece) (cs : List Char) : Option (List (List Char)) :=
  reMatchF (ps.length + 1) ps cs

/-- Unanchored search (JS `String.prototype.match` without the `g`
flag): try every start position from the left. -/
def reSearch (ps : List Piece) : List Char → Option (List (List Char))
  | [] => reMatch ps []
  | c :: cs =>
      match reMatch ps (c :: cs) with
      | some caps => some caps
      | none => reSearch ps cs

/-- The regex of `blockAt` (line 818):
`The block at .+,.+,.+ is (.+) \x28expected .+\x29.` with the fourth
`.+` capturing. -/
def blockAtPattern : List Piece :=
  [.lit "The block at ".data, .dotPlus false, .lit ",".data, .dotPlus false, .lit ",".data,
   .dotPlus false, .lit " is ".data, .dotPlus true, .lit " (expected ".data, .dotPlus false,
   .lit ").".data]

/-- `statusMessage.match(regex)` followed by reading capture group 1
(`res[1]`, line 820). -/
def blockRegexCapture (statusMessage : String) : Option String :=
  match reSearch blockAtPattern statusMessage.data with
  | some (c :: _) => some (String.mk c)
  | _ => none

/-- The callback body of `blockAt` (lines 817-822), with `resolve`
reified as the returned value: a `matches` result resolves `"Air"`, a
message matching the regex resolves the captured block name, anything
else resolves the explicit `undefined` sentinel. The `Except` codomain
makes the absence of any throwing path explicit. -/
def blockAtResolve (matched : Bool) (statusMessage : String) : Except String (Option String) :=
  if matched then .ok (some "Air")
  else
    match blockRegexCapture statusMessage with
    | some r => .ok (some r)
    | none => .ok none

/-- The structured `destination` field of the `locate` command result
(line 874). -/
structure LocateResult where
  x : Int
  y : Int
  z : Int
deriving DecidableEq

/-- The callback body of `locate` (lines 874-877): a nonzero status code
resolves the `[undefined, undefined]` sentinel pair, otherwise the
destination's x and z coordinates. -/
def locateResolve (statusCode : Int) (destination : LocateResult) :
    Except String (Option Int × Option Int) :=
  if statusCode ≠ 0 then .ok (none, none) else .ok (some destination.x, some destination.z)

/-- C7: the response handlers of `blockAt` and `locate` never raise: the
`blockAt` handler always resolves — with `"Air"` on a `matches` result,
with the regex capture when the status message matches the expected
pattern, and with the explicit `undefined` sentinel when it matches
neither — and the `locate` handler always resolves, with the unknown
sentinel pair exactly when the status code is nonzero. -/
theorem blockAt_locate_never_raise (matched : Bool) (msg : String) (sc : Int)
    (dest : LocateResult) :
    (∃ v, blockAtResolve matched msg = .ok v) ∧
    (matched = true → blockAtResolve matched msg = .ok (some "Air")) ∧
    (∀ r, matched = false → blockRegexCapture msg = some r →
      blockAtResolve matched msg = .ok (some r)) ∧
    (matched = false → blockRegexCapture msg = none →
      blockAtResolve matched msg = .ok none) ∧
    (∃ w, locateResolve sc dest = .ok w) ∧
    (sc ≠ 0 → locateResolve sc dest = .ok (none, none)) ∧
    (sc = 0 → locateResolve sc dest = .ok (some dest.x, some dest.z)) := by
  refine ⟨?_, ?_, ?_, ?_, ?_, ?_, ?_⟩
  · cases matched with
    | true => exact ⟨some "Air", rfl⟩
    | false =>
        cases hcap : blockRegexCapture msg with
        | some r => exact ⟨some r, by simp [blockAtResolve, hcap]⟩
        | none => exact ⟨none, by simp [blockAtResolve, hcap]⟩
  · intro hm
    simp [blockAtResolve, hm]
  · intro r hm hcap
    simp [blockAtResolve, hm, hcap]
  · intro hm hcap
    simp [blockAtResolve, hm, hcap]
  · by_cases hsc : sc = 0
    · exact ⟨(some dest.x, some dest.z), by simp [locateResolve, hsc]⟩
    · exact ⟨(none, none), by simp [locateResolve, hsc]⟩
  · intro hsc
    simp [locateResolve, hsc]
  · intro hsc
    simp [locateResolve, hsc]

/-- C8: reply ids generated by one instance are pairwise distinct for its
lifetime: `getId` strictly increments the counter (and so does each local
`trigger`, which allocates its reply id through `getId`), and the id
strings built for two distinct counter values — the counter is
non-negative after its pre-increment from the initial `-1` — are
different strings. -/
theorem getId_distinct (bedspace : String) (i j : Int)
    (hi : 0 ≤ i) (hj : 0 ≤ j) (hij : i ≠ j)
    (s : Bed) (n : String) (d : Obj) (hcn : hasColon n = false) :
    getIdStr bedspace i ≠ getIdStr bedspace j ∧
    (getId bedspace i).2 = i + 1 ∧
    (triggerB s n d none).1.ids = s.ids + 1 := by
  refine ⟨fun he => hij (getIdStr_inj bedspace i j hi hj he), rfl, ?_⟩
  rw [triggerB_local s n d hcn]
  rfl

/-! ## Witnesses: the theorems above applied at concrete inputs -/

theorem trigger_local_invokes_once_witness :
    (triggerB (onB (construct "devbed" SysType.server) "ping" (CB.user 7)) "ping"
        [("x", Val.vNum 1)] none).2.filter (fun iv => iv.1 == 7) =
      [(7, Val.vObj (mergeObj
        ((lookupA (construct "devbed" SysType.server).defaultData "ping").getD [])
        [("x", Val.vNum 1)]))] :=
  trigger_local_invokes_registered_callback_once (construct "devbed" SysType.server) "ping" 7
    [("x", Val.vNum 1)] rfl rfl rfl (by decide) (by decide)

theorem cmd_dual_convention_witness :
    (cmdModel "devbed" SysType.server CbOrAs.absent none 0).ret = CmdRet.promise 0 ∧
    (cmdModel "devbed" SysType.client CbOrAs.absent none 0).ret = CmdRet.void :=
  ⟨((cmd_dual_convention "devbed" CbOrAs.absent none 0 []).1.1 rfl).1,
   (cmd_dual_convention "devbed" CbOrAs.absent none 0 []).2.1⟩

theorem collision_warns_and_continues_witness :
    (collisionCheck SysType.client true "devbed").errorRaised = none :=
  (collision_warns_and_continues SysType.client true "devbed").1

theorem add_existing_raises_before_mutation_witness :
    (addComponent [((1, "c"), [("hp", Val.vNum 5)])] [] "c" 1 false).1 =
      [((1, "c"), [("hp", Val.vNum 5)])] ∧
    (addComponent [((1, "c"), [("hp", Val.vNum 5)])] [] "c" 1 false).2 =
      some "Component already exists!" ∧
    (addComponent [((1, "c"), [("hp", Val.vNum 5)])] [] "c" 1 true).2 = none :=
  add_existing_raises_before_mutation _ _ _ _ rfl

theorem data_roundtrip_shallow_merge_witness :
    (dataComponent
      (dataComponent [((1, "c"), [("hp", Val.vNum 5), ("name", Val.vStr "a")])] "c" 1
        (some (Transform.obj [("hp", Val.vNum 9), ("x", Val.vNum 1)]))).1 "c" 1 none).2 =
      Except.ok (some (mergeObj [("hp", Val.vNum 5), ("name", Val.vStr "a")]
        [("hp", Val.vNum 9), ("x", Val.vNum 1)])) :=
  (data_roundtrip_shallow_merge [((1, "c"), [("hp", Val.vNum 5), ("name", Val.vStr "a")])]
    "c" 1 [("hp", Val.vNum 5), ("name", Val.vStr "a")] [("hp", Val.vNum 9), ("x", Val.vNum 1)]
    rfl (by decide)).2.1

theorem once_invokes_at_most_once_witness :
    ((trigger1 9)^[3] (onceState [4, 5] 9)).userCbInvocations ≤ 1 ∧
    trigger1 9 (onceState [4, 5] 9) = ⟨[4, 5], true, 1⟩ :=
  ⟨(once_invokes_at_most_once [4, 5] 9 3 (by decide)).1,
   (once_invokes_at_most_once [4, 5] 9 3 (by decide)).2.2⟩

theorem blockAt_locate_never_raise_witness :
    blockAtResolve false "no such message" = .ok none ∧
    locateResolve 1 ⟨3, 4, 5⟩ = .ok (none, none) :=
  ⟨(blockAt_locate_never_raise false "no such message" 1 ⟨3, 4, 5⟩).2.2.2.1 rfl rfl,
   (blockAt_locate_never_raise false "no such message" 1 ⟨3, 4, 5⟩).2.2.2.2.2.1 (by decide)⟩

theorem getId_distinct_witness :
    getIdStr "devbed" 0 ≠ getIdStr "devbed" 1 ∧
    (getId "devbed" 0).2 = 0 + 1 ∧
    (triggerB (construct "devbed" SysType.client) "ping" [] none).1.ids =
      (construct "devbed" SysType.client).ids + 1 :=
  getId_distinct "devbed" 0 1 (by decide) (by decide) (by decide)
    (construct "devbed" SysType.client) "ping" [] rfl

theorem off_before_on_skips_host_subscription_witness :
    lookupA (onB (offB (construct "devbed" SysType.client) "custom:foo" none) "custom:foo"
        (CB.user 3)).callbacks "custom:foo" = some [CB.user 3] ∧
    (onB (offB (construct "devbed" SysType.client) "custom:foo" none) "custom:foo"
        (CB.user 3)).hostListened = (construct "devbed" SysType.client).hostListened ∧
    hostDeliver (onB (offB (construct "devbed" SysType.client) "custom:foo" none) "custom:foo"
        (CB.user 3)) "custom:foo" (Val.vNum 0) = [] :=
  off_before_on_skips_host_subscription (construct "devbed" SysType.client) "custom:foo" 3
    (Val.vNum 0) rfl rfl rfl (by decide)
